import Mathlib

/-!
Verification of the `vitest-environment-prisma-postgres` transaction context.

This file is a shallow embedding of `src/index.ts` (class
`PrismaPostgresTestContext` and the equivalent `createPrismaPostgresTestContext`
closure version): the forwarding client proxy, the savepoint-based nested
`$transaction` emulation (`fakeInnerTransactionMethod`), and the
begin/end test-transaction lifecycle.

Modelling conventions:
- JavaScript promise settlement is modelled by `Except Err Val`
  (rejection = `.error`, fulfillment = `.ok`).
- SQL statements issued through `$executeRawUnsafe` are collected in an
  explicit trace (`List Stmt`).
- The per-process savepoint counter is threaded explicitly.
- Errors keep their identity: an `Err` value re-raised is the same value.
-/

namespace VitestPrismaPostgres

/-- JavaScript values that flow through the client, as far as the claims
need them: plain data, booleans, numbers, strings and arrays. -/
inductive Val where
  | unit
  | bool (b : Bool)
  | nat (n : Nat)
  | str (s : String)
  | list (vs : List Val)

/-- Errors. `lifecycle` errors are the ones thrown by the context itself
(with their message text); `user` errors come from units of work and carry
an identity tag plus a message, so that re-raising "with identical identity
and message" is expressible. `typeError` models the JavaScript TypeError
raised when a non-function value is called. -/
inductive Err where
  | lifecycle (msg : String)
  | user (tag : Nat) (msg : String)
  | typeError
deriving DecidableEq

/-- Message of the error thrown by `fakeInnerTransactionMethod` when no test
transaction is active (src/index.ts). -/
def nestedTxWithoutActiveMsg : String :=
  "Nested $transaction called without an active test transaction."

/-- Message of the error thrown by the client proxy when accessed outside an
active test transaction (src/index.ts). -/
def accessOutsideMsg : String :=
  "prismaPostgresTestContext.client was accessed outside of an active test transaction.\nThis usually means that test.setupFiles is not configured correctly."

/-- Message of the internal rejection used to roll back the suspended outer
transaction body, as constructed in src/index.ts. -/
def rollbackTestTransactionMsg : String :=
  "rollback test transaction"

/-- Decimal rendering of a natural number, as JavaScript template
interpolation produces for the savepoint counter. -/
def natToDecimal (n : Nat) : String :=
  if n = 0 then "0" else ((Nat.digits 10 n).reverse.map Nat.digitChar).asString

/-- Savepoint identifier generated by `fakeInnerTransactionMethod`:
the template `vitest_environment_prisma_postgres_<counterValue>`. -/
def savePointId (n : Nat) : String :=
  "vitest_environment_prisma_postgres_" ++ natToDecimal n

/-- SQL statements the savepoint emulator issues through `$executeRawUnsafe`,
identified by the counter value interpolated into their savepoint name. -/
inductive Stmt where
  | savepoint (n : Nat)
  | releaseSavepoint (n : Nat)
  | rollbackToSavepoint (n : Nat)
deriving DecidableEq

/-- The counter value the savepoint name of a statement was generated from. -/
def Stmt.idx : Stmt → Nat
  | .savepoint n => n
  | .releaseSavepoint n => n
  | .rollbackToSavepoint n => n

/-- The literal SQL text of a statement, as built in src/index.ts. -/
def Stmt.sql : Stmt → String
  | .savepoint n => "SAVEPOINT " ++ savePointId n ++ ";"
  | .releaseSavepoint n => "RELEASE SAVEPOINT " ++ savePointId n ++ ";"
  | .rollbackToSavepoint n => "ROLLBACK TO SAVEPOINT " ++ savePointId n ++ ";"

/-- Counter values of the SAVEPOINT statements of a trace, in issue order:
the generated savepoint names of the trace. -/
def savepointIdxs (t : List Stmt) : List Nat :=
  t.filterMap fun s =>
    match s with
    | .savepoint n => some n
    | _ => none

/-- A unit of work passed to (or run inside) the nested `$transaction`
emulation: a primitive action settling with an outcome, sequencing, or a
recursive nested `$transaction` call (callback form or array form). -/
inductive UoW where
  | act (r : Except Err Val)
  | andThen (a b : UoW)
  | nestedCallback (u : UoW)
  | nestedArray (ps : List (Except Err Val))

/-- Outcome of running something effectful against the open transaction:
the settlement, the savepoint counter afterwards, and the SQL statements
issued, in order. -/
structure RunOut where
  result : Except Err Val
  counter : Nat
  trace : List Stmt

/-- `Promise.all` over already-settled promises: fulfills with the list of
all values when every entry fulfills, otherwise rejects with the first
rejection in array order. -/
def promiseAllList : List (Except Err Val) → Except Err (List Val)
  | [] => .ok []
  | p :: ps =>
    match p with
    | .error e => .error e
    | .ok v =>
      match promiseAllList ps with
      | .error e => .error e
      | .ok vs => .ok (v :: vs)

/-- `Promise.all` packaging its fulfillment as an array value. -/
def promiseAll (ps : List (Except Err Val)) : Except Err Val :=
  match promiseAllList ps with
  | .error e => .error e
  | .ok vs => .ok (.list vs)

/-- The try/catch block of `fakeInnerTransactionMethod` around an already-run
unit of work: SAVEPOINT before it; RELEASE SAVEPOINT and return the result
unchanged on success; ROLLBACK TO SAVEPOINT and re-raise the same error on
failure (src/index.ts). -/
def wrapSavepoint (sp : Nat) (inner : RunOut) : RunOut :=
  match inner.result with
  | .ok v =>
    ⟨.ok v, inner.counter, Stmt.savepoint sp :: (inner.trace ++ [Stmt.releaseSavepoint sp])⟩
  | .error e =>
    ⟨.error e, inner.counter, Stmt.savepoint sp :: (inner.trace ++ [Stmt.rollbackToSavepoint sp])⟩

/-- Runs a unit of work inside the open test transaction, starting from a
savepoint counter value. A nested `$transaction` call increments the counter
first (`++savePointCounter`) and wraps its body in the savepoint block. -/
def runUoW : UoW → Nat → RunOut
  | .act r, c => ⟨r, c, []⟩
  | .andThen a b, c =>
    let ra := runUoW a c
    match ra.result with
    | .error e => ⟨.error e, ra.counter, ra.trace⟩
    | .ok _ =>
      let rb := runUoW b ra.counter
      ⟨rb.result, rb.counter, ra.trace ++ rb.trace⟩
  | .nestedCallback u, c => wrapSavepoint (c + 1) (runUoW u (c + 1))
  | .nestedArray ps, c => wrapSavepoint (c + 1) ⟨promiseAll ps, c + 1, []⟩

/-- Argument of a `$transaction` call: the array overload (already-started
operations) or the callback overload. -/
inductive TxArg where
  | array (ps : List (Except Err Val))
  | callback (u : UoW)

/-- The `run` closure of `fakeInnerTransactionMethod`:
`Array.isArray(arg) ? Promise.all(arg) : arg(transactionClient)`. -/
def runArg : TxArg → Nat → RunOut
  | .array ps, c => ⟨promiseAll ps, c, []⟩
  | .callback u, c => runUoW u c

/-- A JavaScript property key: a string name or a symbol. -/
inductive PropKey where
  | str (s : String)
  | sym (id : Nat)
deriving DecidableEq

/-- A member stored on the transaction-scoped handle: plain data
(`typeof value` is not a function) or a callable whose behavior depends on
the identity of `this` it is invoked with. -/
inductive Member where
  | data (v : Val)
  | callable (f : Nat → Val)

/-- Handle of the transaction-scoped client passed by the driver to the
outer transaction callback: an identity (for `this` binding) plus its
member table. For the savepoint emulator only its presence matters. -/
structure TxClient where
  id : Nat
  members : PropKey → Member

/-- `fakeInnerTransactionMethod` of src/index.ts: throws if no test
transaction is active; otherwise allocates `savePointId(++counter)`, issues
SAVEPOINT, runs the unit of work, and RELEASEs on success or ROLLBACKs TO
and re-raises on failure. -/
def fakeInnerTransactionMethod (transactionClient : Option TxClient) (c : Nat)
    (arg : TxArg) : RunOut :=
  match transactionClient with
  | none => ⟨.error (.lifecycle nestedTxWithoutActiveMsg), c, []⟩
  | some _ => wrapSavepoint (c + 1) (runArg arg (c + 1))

/-- The state of `triggerTransactionEnd` (the end-of-transaction signal):
the initial default no-op closure, or the closure installed by
`beginTestTransaction`, which rejects the suspended outer-transaction body
and clears the handle. `settled` records whether the suspended promise has
already been settled, since rejecting an already-settled promise does
nothing. -/
inductive Trigger where
  | noop
  | endTx (settled : Bool)
deriving DecidableEq

/-- The mutable state of the test context (class
`PrismaPostgresTestContext` in src/index.ts): connection flag, savepoint
counter, the currently active transaction-scoped handle (nullable), and the
end-of-transaction signal. -/
structure Ctx where
  connected : Bool
  savePointCounter : Nat
  transactionClient : Option TxClient
  trigger : Trigger

/-- Result of a property access on the forwarding client proxy. -/
inductive GetResult where
  | raw (v : Val)
  | boundFn (thisId : Nat) (f : Nat → Val)
  | fakeTx

/-- The `get` trap of the client proxy (src/index.ts): throws when no test
transaction is active; intercepts `$transaction` with the savepoint
emulator; returns callables bound to the current transaction-scoped handle
and other values unchanged. -/
def clientProxyGet (ctx : Ctx) (name : PropKey) : Except Err GetResult :=
  match ctx.transactionClient with
  | none => .error (.lifecycle accessOutsideMsg)
  | some tc =>
    if name = .str "$transaction" then .ok .fakeTx
    else
      match tc.members name with
      | .data v => .ok (.raw v)
      | .callable f => .ok (.boundFn tc.id f)

/-- Invokes a value previously obtained from the proxy, in the context that
is current at call time. A method bound at access time is a plain function:
calling it does not go back through the proxy, so it uses the handle
captured when it was bound and consults no state. The intercepted
`$transaction` reads `this.transactionClient` at call time. Calling a
non-function raises a JavaScript TypeError. -/
def callObtained (r : GetResult) (ctx : Ctx) (arg : TxArg) : RunOut :=
  match r with
  | .raw _ => ⟨.error .typeError, ctx.savePointCounter, []⟩
  | .boundFn thisId f => ⟨.ok (f thisId), ctx.savePointCounter, []⟩
  | .fakeTx => fakeInnerTransactionMethod ctx.transactionClient ctx.savePointCounter arg

/-- `beginTestTransaction` of src/index.ts (which has no already-active
guard): connects if needed, opens the interactive transaction, stores the
transaction-scoped handle, installs the end-of-transaction closure over the
freshly created suspended promise, and resolves once the handle is ready. -/
def beginTestTransaction (ctx : Ctx) (tc : TxClient) : Ctx :=
  { ctx with
    connected := true
    transactionClient := some tc
    trigger := .endTx false }

/-- Message of the rejection raised by the guarded `beginTestTransaction`
when a test transaction is already active, as asserted by
src/contest.test.ts. -/
def beginWhileActiveMsg : String :=
  "beginTestTransaction called while a test transaction is already active"

/-- Modelled from the spec: the already-active guard of
`beginTestTransaction` in the current `createContext` (file
`src/context.ts`, which is absent from the sources; only its test suite
`src/contest.test.ts` is present). Per the spec, calling `begin` while a
transaction is active "fails with a transaction already active condition"
and "must not silently queue or replace the existing transaction";
otherwise it behaves as the unguarded `beginTestTransaction`. The message
text is the one the test suite asserts. -/
def beginTestTransactionGuarded (ctx : Ctx) (tc : TxClient) :
    Except Err Unit × Ctx :=
  match ctx.transactionClient with
  | some _ => (.error (.lifecycle beginWhileActiveMsg), ctx)
  | none => (.ok (), beginTestTransaction ctx tc)

/-- What a call to `endTestTransaction` produces: the outcome its caller
observes, the context afterwards, and the settlement (if any) delivered to
the suspended outer-transaction body. -/
structure EndResult where
  result : Except Err Unit
  ctx : Ctx
  settled : Option (Except Err Val)

/-- `endTestTransaction` of src/index.ts: invokes `triggerTransactionEnd`.
The default signal does nothing. The installed signal rejects the suspended
body with the internal rollback error (a no-op if that promise has already
settled) and clears the transaction-scoped handle. In either case the call
itself returns normally. -/
def endTestTransaction (ctx : Ctx) : EndResult :=
  match ctx.trigger with
  | .noop => ⟨.ok (), ctx, none⟩
  | .endTx settled =>
    ⟨.ok (),
      { ctx with transactionClient := none, trigger := .endTx true },
      if settled then none else some (.error (.lifecycle rollbackTestTransactionMsg))⟩

/-- Settlement of the interactive `$transaction` promise of the driver as a
function of the settlement of the promise returned by the callback: the driver
rolls back and re-rejects with the same error on rejection, and commits and
fulfills with the same value on fulfillment (Database Client contract;
`$transaction` stub in src/test/prisma-client-stub.ts returns the callback
result directly). -/
def interactiveTransactionOutcome (body : Except Err Val) : Except Err Val :=
  body

/-- The `.catch(() => true)` handler `beginTestTransaction` attaches to the
`$transaction` promise at initiation (src/index.ts): every rejection is
absorbed and replaced by a fulfillment with `true`. -/
def beginCatch (o : Except Err Val) : Except Err Val :=
  match o with
  | .error _ => .ok (.bool true)
  | .ok v => .ok v

/-- The complete promise chain created at transaction initiation: the
`$transaction` promise of the driver followed by the locally attached catch. -/
def beginWatchedOutcome (body : Except Err Val) : Except Err Val :=
  beginCatch (interactiveTransactionOutcome body)

/-- One per-test session against a context: `beginTestTransaction`, then a
unit of work through the proxy inside the open transaction, then
`endTestTransaction`. -/
def runSession (ctx : Ctx) (tc : TxClient) (u : UoW) : Ctx × List Stmt :=
  let active := beginTestTransaction ctx tc
  let out := runUoW u active.savePointCounter
  let afterRun := { active with savePointCounter := out.counter }
  ((endTestTransaction afterRun).ctx, out.trace)

/-- A sequence of test sessions in one process lifetime, threading the
context (and with it the savepoint counter) from one to the next;
the combined statement trace is concatenated in order. -/
def runSessions (ctx : Ctx) : List (TxClient × UoW) → Ctx × List Stmt
  | [] => (ctx, [])
  | (tc, u) :: rest =>
    let s := runSession ctx tc u
    let r := runSessions s.1 rest
    (r.1, s.2 ++ r.2)

/-- A sample transaction-scoped client handle used by concrete witnesses. -/
def sampleClient : TxClient :=
  ⟨4, fun k =>
    match k with
    | .str "meta" => .data (.nat 9)
    | .str "findUser" => .callable (fun thisId => .nat (thisId + 100))
    | _ => .data .unit⟩

/-- A sample idle context (connected, no active transaction). -/
def idleCtx : Ctx := ⟨true, 0, none, .noop⟩

/-- A sample context with an active test transaction. -/
def activeCtx : Ctx := ⟨true, 0, some sampleClient, .endTx false⟩

example :
    runUoW (.nestedCallback (.act (.ok (.nat 7)))) 0 =
      ⟨.ok (.nat 7), 1, [.savepoint 1, .releaseSavepoint 1]⟩ := by rfl

example :
    runUoW (.nestedCallback (.nestedCallback (.act (.error (.user 3 "boom"))))) 0 =
      ⟨.error (.user 3 "boom"), 2,
        [.savepoint 1, .savepoint 2, .rollbackToSavepoint 2, .rollbackToSavepoint 1]⟩ := by rfl

example :
    fakeInnerTransactionMethod none 5 (.callback (.act (.ok .unit))) =
      ⟨.error (.lifecycle nestedTxWithoutActiveMsg), 5, []⟩ := by rfl

example :
    fakeInnerTransactionMethod (some sampleClient) 0
        (.array [.ok (.nat 1), .ok (.nat 2)]) =
      ⟨.ok (.list [.nat 1, .nat 2]), 1, [.savepoint 1, .releaseSavepoint 1]⟩ := by rfl

example :
    clientProxyGet idleCtx (.str "user") = .error (.lifecycle accessOutsideMsg) := by rfl

example :
    clientProxyGet activeCtx (.str "meta") = .ok (.raw (.nat 9)) := by rfl

/-! Basic lemmas about the savepoint wrapper and the trace interpreter. -/

lemma wrapSavepoint_counter (sp : Nat) (ro : RunOut) :
    (wrapSavepoint sp ro).counter = ro.counter := by
  cases ro with
  | mk r c t => cases r <;> rfl

lemma wrapSavepoint_trace (sp : Nat) (ro : RunOut) :
    ∃ last, last.idx = sp ∧ (∀ n, last ≠ Stmt.savepoint n) ∧
      (wrapSavepoint sp ro).trace = Stmt.savepoint sp :: (ro.trace ++ [last]) := by
  cases ro with
  | mk r c t =>
    cases r with
    | ok v => exact ⟨Stmt.releaseSavepoint sp, rfl, fun n => by simp, rfl⟩
    | error e => exact ⟨Stmt.rollbackToSavepoint sp, rfl, fun n => by simp, rfl⟩

lemma runUoW_counter_le (u : UoW) : ∀ c, c ≤ (runUoW u c).counter := by
  induction u with
  | act r => intro c; exact le_refl c
  | andThen a b iha ihb =>
    intro c
    simp only [runUoW]
    cases h : (runUoW a c).result with
    | error e => exact iha c
    | ok v => exact le_trans (iha c) (ihb (runUoW a c).counter)
  | nestedCallback u ih =>
    intro c
    simp only [runUoW, wrapSavepoint_counter]
    exact le_trans (Nat.le_succ c) (ih (c + 1))
  | nestedArray ps =>
    intro c
    simp only [runUoW, wrapSavepoint_counter]
    exact Nat.le_succ c

lemma runUoW_trace_bounds (u : UoW) :
    ∀ c s, s ∈ (runUoW u c).trace → c < s.idx ∧ s.idx ≤ (runUoW u c).counter := by
  induction u with
  | act r => intro c s hs; simp [runUoW] at hs
  | andThen a b iha ihb =>
    intro c s hs
    simp only [runUoW] at hs ⊢
    cases h : (runUoW a c).result with
    | error e =>
      rw [h] at hs
      exact iha c s hs
    | ok v =>
      rw [h] at hs
      have hs2 : s ∈ (runUoW a c).trace ++ (runUoW b (runUoW a c).counter).trace := hs
      rcases List.mem_append.mp hs2 with h1 | h1
      · rcases iha c s h1 with ⟨ha, hb⟩
        exact ⟨ha, le_trans hb (runUoW_counter_le b (runUoW a c).counter)⟩
      · rcases ihb (runUoW a c).counter s h1 with ⟨ha, hb⟩
        exact ⟨lt_of_le_of_lt (runUoW_counter_le a c) ha, hb⟩
  | nestedCallback u ih =>
    intro c s hs
    simp only [runUoW] at hs ⊢
    rw [wrapSavepoint_counter]
    obtain ⟨last, hidx, _, htr⟩ := wrapSavepoint_trace (c + 1) (runUoW u (c + 1))
    rw [htr] at hs
    rcases List.mem_cons.mp hs with rfl | hs2
    · exact ⟨Nat.lt_succ_self c, runUoW_counter_le u (c + 1)⟩
    · rcases List.mem_append.mp hs2 with h1 | h1
      · rcases ih (c + 1) s h1 with ⟨ha, hb⟩
        exact ⟨lt_trans (Nat.lt_succ_self c) ha, hb⟩
      · have hsl : s = last := by simpa using h1
        subst hsl
        rw [hidx]
        exact ⟨Nat.lt_succ_self c, runUoW_counter_le u (c + 1)⟩
  | nestedArray ps =>
    intro c s hs
    simp only [runUoW] at hs ⊢
    rw [wrapSavepoint_counter]
    obtain ⟨last, hidx, _, htr⟩ := wrapSavepoint_trace (c + 1) ⟨promiseAll ps, c + 1, []⟩
    rw [htr] at hs
    rcases List.mem_cons.mp hs with rfl | hs2
    · exact ⟨Nat.lt_succ_self c, le_refl _⟩
    · have hsl : s = last := by simpa using hs2
      subst hsl
      rw [hidx]
      exact ⟨Nat.lt_succ_self c, le_refl _⟩

lemma mem_savepointIdxs {t : List Stmt} {m : Nat} :
    m ∈ savepointIdxs t ↔ Stmt.savepoint m ∈ t := by
  simp only [savepointIdxs, List.mem_filterMap]
  constructor
  · rintro ⟨s, hs, hm⟩
    cases s <;> simp_all
  · intro h
    exact ⟨Stmt.savepoint m, h, rfl⟩

lemma savepointIdxs_append (t1 t2 : List Stmt) :
    savepointIdxs (t1 ++ t2) = savepointIdxs t1 ++ savepointIdxs t2 :=
  List.filterMap_append t1 t2 _

lemma savepointIdxs_wrap (sp : Nat) (ro : RunOut) :
    savepointIdxs (wrapSavepoint sp ro).trace = sp :: savepointIdxs ro.trace := by
  obtain ⟨last, _, hns, htr⟩ := wrapSavepoint_trace sp ro
  have hlast : savepointIdxs [last] = [] := by
    cases last with
    | savepoint n => exact absurd rfl (hns n)
    | releaseSavepoint n => rfl
    | rollbackToSavepoint n => rfl
  rw [htr]
  have hsplit : Stmt.savepoint sp :: (ro.trace ++ [last]) =
      [Stmt.savepoint sp] ++ (ro.trace ++ [last]) := rfl
  rw [hsplit, savepointIdxs_append, savepointIdxs_append, hlast]
  simp [savepointIdxs]

lemma runUoW_sp_sorted (u : UoW) :
    ∀ c, List.Sorted (· < ·) (savepointIdxs (runUoW u c).trace) := by
  induction u with
  | act r => intro c; simp [runUoW, savepointIdxs]
  | andThen a b iha ihb =>
    intro c
    simp only [runUoW]
    cases h : (runUoW a c).result with
    | error e => exact iha c
    | ok v =>
      show List.Sorted (· < ·)
        (savepointIdxs ((runUoW a c).trace ++ (runUoW b (runUoW a c).counter).trace))
      rw [savepointIdxs_append]
      simp only [List.Sorted] at iha ihb ⊢
      rw [List.pairwise_append]
      refine ⟨iha c, ihb (runUoW a c).counter, ?_⟩
      intro x hx y hy
      have hxb := (runUoW_trace_bounds a c _ (mem_savepointIdxs.mp hx)).2
      have hyb := (runUoW_trace_bounds b (runUoW a c).counter _ (mem_savepointIdxs.mp hy)).1
      exact lt_of_le_of_lt hxb hyb
  | nestedCallback u ih =>
    intro c
    simp only [runUoW, savepointIdxs_wrap]
    rw [List.sorted_cons]
    refine ⟨?_, ih (c + 1)⟩
    intro m hm
    exact (runUoW_trace_bounds u (c + 1) _ (mem_savepointIdxs.mp hm)).1
  | nestedArray ps =>
    intro c
    simp only [runUoW, savepointIdxs_wrap]
    simp [savepointIdxs]

lemma count_eq_zero_of_lt_idx {t : List Stmt} {sp : Nat}
    (h : ∀ s ∈ t, sp < s.idx) (s0 : Stmt) (h0 : s0.idx = sp) : t.count s0 = 0 :=
  List.count_eq_zero.mpr fun hm => absurd (h s0 hm) (by rw [h0]; exact lt_irrefl sp)

/-! Injectivity of the generated savepoint names. -/

lemma digitChar_inj_below_ten :
    ∀ d1 < 10, ∀ d2 < 10, Nat.digitChar d1 = Nat.digitChar d2 → d1 = d2 := by decide

lemma map_digitChar_inj :
    ∀ l1 l2 : List Nat, (∀ d ∈ l1, d < 10) → (∀ d ∈ l2, d < 10) →
      l1.map Nat.digitChar = l2.map Nat.digitChar → l1 = l2 := by
  intro l1
  induction l1 with
  | nil =>
    intro l2 _ _ h
    cases l2 with
    | nil => rfl
    | cons b l => simp at h
  | cons a l ih =>
    intro l2 h1 h2 h
    cases l2 with
    | nil => simp at h
    | cons b l' =>
      simp only [List.map_cons, List.cons.injEq] at h
      have ha : a = b :=
        digitChar_inj_below_ten a (h1 a (List.mem_cons_self a l)) b
          (h2 b (List.mem_cons_self b l')) h.1
      have hl : l = l' :=
        ih l' (fun d hd => h1 d (List.mem_cons_of_mem a hd))
          (fun d hd => h2 d (List.mem_cons_of_mem b hd)) h.2
      rw [ha, hl]

lemma natToDecimal_ne_zero_str {n : Nat} (hn : n ≠ 0) : natToDecimal n ≠ "0" := by
  unfold natToDecimal
  rw [if_neg hn]
  intro h
  have hdata : ((Nat.digits 10 n).reverse.map Nat.digitChar) = ['0'] :=
    congrArg String.data h
  have hrev : (Nat.digits 10 n).reverse = [0] := by
    apply map_digitChar_inj
    · intro d hd
      exact Nat.digits_lt_base (by norm_num) (List.mem_reverse.mp hd)
    · intro d hd
      simp only [List.mem_singleton] at hd
      rw [hd]; norm_num
    · simpa using hdata
  have hdig : Nat.digits 10 n = [0] := by
    have := congrArg List.reverse hrev
    simpa using this
  have : n = 0 := by
    have h0 := Nat.ofDigits_digits 10 n
    rw [hdig] at h0
    simpa [Nat.ofDigits] using h0.symm
  exact hn this

lemma natToDecimal_injective : Function.Injective natToDecimal := by
  intro m n h
  by_cases hm : m = 0
  · by_cases hn : n = 0
    · rw [hm, hn]
    · subst hm
      exact absurd h.symm (natToDecimal_ne_zero_str hn)
  · by_cases hn : n = 0
    · subst hn
      exact absurd h (natToDecimal_ne_zero_str hm)
    · unfold natToDecimal at h
      rw [if_neg hm, if_neg hn] at h
      have hdata : ((Nat.digits 10 m).reverse.map Nat.digitChar) =
          ((Nat.digits 10 n).reverse.map Nat.digitChar) := congrArg String.data h
      have hrev : (Nat.digits 10 m).reverse = (Nat.digits 10 n).reverse := by
        apply map_digitChar_inj _ _ ?_ ?_ hdata
        · intro d hd
          exact Nat.digits_lt_base (by norm_num) (List.mem_reverse.mp hd)
        · intro d hd
          exact Nat.digits_lt_base (by norm_num) (List.mem_reverse.mp hd)
      have hdig : Nat.digits 10 m = Nat.digits 10 n := by
        have := congrArg List.reverse hrev
        simpa using this
      exact Nat.digits.injective 10 hdig

lemma savePointId_injective : Function.Injective savePointId := by
  intro m n h
  apply natToDecimal_injective
  have hdata := congrArg String.data h
  simp only [savePointId, String.data_append] at hdata
  exact String.ext (List.append_cancel_left hdata)

/-! Session-level lemmas. -/

lemma runSession_eq (ctx : Ctx) (tc : TxClient) (u : UoW) :
    runSession ctx tc u =
      (⟨true, (runUoW u ctx.savePointCounter).counter, none, .endTx true⟩,
        (runUoW u ctx.savePointCounter).trace) := rfl

lemma runSessions_cons (ctx : Ctx) (tc : TxClient) (u : UoW)
    (rest : List (TxClient × UoW)) :
    runSessions ctx ((tc, u) :: rest) =
      ((runSessions (runSession ctx tc u).1 rest).1,
        (runSession ctx tc u).2 ++ (runSessions (runSession ctx tc u).1 rest).2) := rfl

lemma runSessions_counter_le (ss : List (TxClient × UoW)) :
    ∀ ctx : Ctx, ctx.savePointCounter ≤ (runSessions ctx ss).1.savePointCounter := by
  induction ss with
  | nil => intro ctx; exact le_refl _
  | cons p rest ih =>
    intro ctx
    rcases p with ⟨tc, u⟩
    rw [runSessions_cons]
    have h1 : ctx.savePointCounter ≤ (runSession ctx tc u).1.savePointCounter := by
      rw [runSession_eq]
      exact runUoW_counter_le u ctx.savePointCounter
    exact le_trans h1 (ih (runSession ctx tc u).1)

lemma runSessions_trace_bounds (ss : List (TxClient × UoW)) :
    ∀ (ctx : Ctx) (s : Stmt), s ∈ (runSessions ctx ss).2 →
      ctx.savePointCounter < s.idx ∧ s.idx ≤ (runSessions ctx ss).1.savePointCounter := by
  induction ss with
  | nil => intro ctx s hs; simp [runSessions] at hs
  | cons p rest ih =>
    intro ctx s hs
    rcases p with ⟨tc, u⟩
    rw [runSessions_cons] at hs ⊢
    rcases List.mem_append.mp hs with h1 | h1
    · rw [runSession_eq] at h1
      rcases runUoW_trace_bounds u ctx.savePointCounter s h1 with ⟨ha, hb⟩
      refine ⟨ha, le_trans ?_ (runSessions_counter_le rest (runSession ctx tc u).1)⟩
      rw [runSession_eq]
      exact hb
    · rcases ih (runSession ctx tc u).1 s h1 with ⟨ha, hb⟩
      refine ⟨lt_of_le_of_lt ?_ ha, hb⟩
      rw [runSession_eq]
      exact runUoW_counter_le u ctx.savePointCounter

lemma runSessions_sorted (ss : List (TxClient × UoW)) :
    ∀ ctx : Ctx, List.Sorted (· < ·) (savepointIdxs (runSessions ctx ss).2) := by
  induction ss with
  | nil => intro ctx; simp [runSessions, savepointIdxs]
  | cons p rest ih =>
    intro ctx
    rcases p with ⟨tc, u⟩
    rw [runSessions_cons, savepointIdxs_append]
    simp only [List.Sorted] at ih ⊢
    rw [List.pairwise_append]
    refine ⟨?_, ih (runSession ctx tc u).1, ?_⟩
    · rw [runSession_eq]
      exact runUoW_sp_sorted u ctx.savePointCounter
    · intro x hx y hy
      have hxb : x ≤ (runSession ctx tc u).1.savePointCounter := by
        rw [runSession_eq] at hx ⊢
        exact (runUoW_trace_bounds u ctx.savePointCounter _ (mem_savepointIdxs.mp hx)).2
      have hyb :=
        (runSessions_trace_bounds rest (runSession ctx tc u).1 _
          (mem_savepointIdxs.mp hy)).1
      exact lt_of_le_of_lt hxb hyb

lemma endTestTransaction_counter (ctx : Ctx) :
    (endTestTransaction ctx).ctx.savePointCounter = ctx.savePointCounter := by
  cases h : ctx.trigger with
  | noop => simp [endTestTransaction, h]
  | endTx settled => simp [endTestTransaction, h]

lemma runArg_trace_bounds (arg : TxArg) (c : Nat) :
    ∀ s ∈ (runArg arg c).trace, c < s.idx ∧ s.idx ≤ (runArg arg c).counter := by
  cases arg with
  | array ps => intro s hs; simp [runArg] at hs
  | callback u => exact runUoW_trace_bounds u c

/-! Claim theorems for the savepoint emulator. -/

/-- C7: invoking the nested-transaction emulation entry point
(`fakeInnerTransactionMethod`) while no outer test transaction is active
fails immediately with the "nested transaction without active test
transaction" condition, before issuing any SQL statement (empty trace) or
running the unit of work (the savepoint counter is untouched, and the
outcome is independent of the argument). -/
theorem nested_without_active_fails_immediately (c : Nat) (arg : TxArg) :
    fakeInnerTransactionMethod none c arg =
      ⟨.error (.lifecycle nestedTxWithoutActiveMsg), c, []⟩ := rfl

/-- C2: a nested `$transaction` call (array or callback form) made while an
outer test transaction is active whose unit of work completes without error
issues exactly one `SAVEPOINT` for its generated name, then exactly one
matching `RELEASE SAVEPOINT` (and no `ROLLBACK TO SAVEPOINT` for that
name), in that order around the unit of work, and returns the result of
the unit of work unchanged (for the array form, `runArg` is `Promise.all`,
the array of all settled results). -/
theorem nested_success_savepoint_release (tc : TxClient) (c : Nat) (arg : TxArg)
    (v : Val) (h : (runArg arg (c + 1)).result = .ok v) :
    (fakeInnerTransactionMethod (some tc) c arg).result = .ok v ∧
    (fakeInnerTransactionMethod (some tc) c arg).trace =
      Stmt.savepoint (c + 1) ::
        ((runArg arg (c + 1)).trace ++ [Stmt.releaseSavepoint (c + 1)]) ∧
    (fakeInnerTransactionMethod (some tc) c arg).trace.count (Stmt.savepoint (c + 1)) = 1 ∧
    (fakeInnerTransactionMethod (some tc) c arg).trace.count
      (Stmt.releaseSavepoint (c + 1)) = 1 ∧
    (fakeInnerTransactionMethod (some tc) c arg).trace.count
      (Stmt.rollbackToSavepoint (c + 1)) = 0 := by
  have hf : fakeInnerTransactionMethod (some tc) c arg =
      wrapSavepoint (c + 1) (runArg arg (c + 1)) := rfl
  have hw : wrapSavepoint (c + 1) (runArg arg (c + 1)) =
      ⟨.ok v, (runArg arg (c + 1)).counter,
        Stmt.savepoint (c + 1) ::
          ((runArg arg (c + 1)).trace ++ [Stmt.releaseSavepoint (c + 1)])⟩ := by
    unfold wrapSavepoint
    rw [h]
  have hbound : ∀ s ∈ (runArg arg (c + 1)).trace, c + 1 < s.idx := fun s hs =>
    (runArg_trace_bounds arg (c + 1) s hs).1
  have z1 : (runArg arg (c + 1)).trace.count (Stmt.savepoint (c + 1)) = 0 :=
    count_eq_zero_of_lt_idx hbound _ rfl
  have z2 : (runArg arg (c + 1)).trace.count (Stmt.releaseSavepoint (c + 1)) = 0 :=
    count_eq_zero_of_lt_idx hbound _ rfl
  have z3 : (runArg arg (c + 1)).trace.count (Stmt.rollbackToSavepoint (c + 1)) = 0 :=
    count_eq_zero_of_lt_idx hbound _ rfl
  rw [hf, hw]
  refine ⟨rfl, rfl, ?_, ?_, ?_⟩ <;>
    simp [List.count_cons, List.count_append, z1, z2, z3]

/-- C3: a nested `$transaction` call made while an outer test transaction is
active whose unit of work raises issues exactly one `SAVEPOINT` for its
generated name followed by exactly one matching `ROLLBACK TO SAVEPOINT`, no
`RELEASE SAVEPOINT` is issued for that name, and the very same error value
(identity tag and message) is re-raised, never wrapped or replaced. -/
theorem nested_failure_savepoint_rollback (tc : TxClient) (c : Nat) (arg : TxArg)
    (e : Err) (h : (runArg arg (c + 1)).result = .error e) :
    (fakeInnerTransactionMethod (some tc) c arg).result = .error e ∧
    (fakeInnerTransactionMethod (some tc) c arg).trace =
      Stmt.savepoint (c + 1) ::
        ((runArg arg (c + 1)).trace ++ [Stmt.rollbackToSavepoint (c + 1)]) ∧
    (fakeInnerTransactionMethod (some tc) c arg).trace.count (Stmt.savepoint (c + 1)) = 1 ∧
    (fakeInnerTransactionMethod (some tc) c arg).trace.count
      (Stmt.rollbackToSavepoint (c + 1)) = 1 ∧
    (fakeInnerTransactionMethod (some tc) c arg).trace.count
      (Stmt.releaseSavepoint (c + 1)) = 0 := by
  have hf : fakeInnerTransactionMethod (some tc) c arg =
      wrapSavepoint (c + 1) (runArg arg (c + 1)) := rfl
  have hw : wrapSavepoint (c + 1) (runArg arg (c + 1)) =
      ⟨.error e, (runArg arg (c + 1)).counter,
        Stmt.savepoint (c + 1) ::
          ((runArg arg (c + 1)).trace ++ [Stmt.rollbackToSavepoint (c + 1)])⟩ := by
    unfold wrapSavepoint
    rw [h]
  have hbound : ∀ s ∈ (runArg arg (c + 1)).trace, c + 1 < s.idx := fun s hs =>
    (runArg_trace_bounds arg (c + 1) s hs).1
  have z1 : (runArg arg (c + 1)).trace.count (Stmt.savepoint (c + 1)) = 0 :=
    count_eq_zero_of_lt_idx hbound _ rfl
  have z2 : (runArg arg (c + 1)).trace.count (Stmt.releaseSavepoint (c + 1)) = 0 :=
    count_eq_zero_of_lt_idx hbound _ rfl
  have z3 : (runArg arg (c + 1)).trace.count (Stmt.rollbackToSavepoint (c + 1)) = 0 :=
    count_eq_zero_of_lt_idx hbound _ rfl
  rw [hf, hw]
  refine ⟨rfl, rfl, ?_, ?_, ?_⟩ <;>
    simp [List.count_cons, List.count_append, z1, z2, z3]

/-- C5: every savepoint name generated by the nested-transaction emulation
follows the template `vitest_environment_prisma_postgres_<n>` with `<n>`
the per-process counter value; across any sequence of test sessions in one
process lifetime (several outer test transactions, each running an
arbitrary unit of work with arbitrary recursive nesting), the generated
counter values are strictly increasing in issue order and the generated
names pairwise distinct; the counter never decreases and is preserved
(never reset) by `beginTestTransaction` and `endTestTransaction`. -/
theorem savepoint_names_template_unique_increasing (ctx : Ctx)
    (sessions : List (TxClient × UoW)) :
    (∀ n, (Stmt.savepoint n).sql =
        "SAVEPOINT vitest_environment_prisma_postgres_" ++ natToDecimal n ++ ";") ∧
    ctx.savePointCounter ≤ (runSessions ctx sessions).1.savePointCounter ∧
    (∀ (ctx2 : Ctx) (tc : TxClient),
      (beginTestTransaction ctx2 tc).savePointCounter = ctx2.savePointCounter) ∧
    (∀ ctx2 : Ctx,
      (endTestTransaction ctx2).ctx.savePointCounter = ctx2.savePointCounter) ∧
    (∀ n ∈ savepointIdxs (runSessions ctx sessions).2,
      ctx.savePointCounter < n ∧ n ≤ (runSessions ctx sessions).1.savePointCounter) ∧
    List.Sorted (· < ·) (savepointIdxs (runSessions ctx sessions).2) ∧
    ((savepointIdxs (runSessions ctx sessions).2).map savePointId).Pairwise (· ≠ ·) := by
  refine ⟨?_, runSessions_counter_le sessions ctx, ?_, endTestTransaction_counter, ?_, ?_, ?_⟩
  · intro n
    apply String.ext
    simp only [Stmt.sql, savePointId, String.data_append]
    simp [List.append_assoc]
  · intro ctx2 tc
    rfl
  · intro n hn
    exact runSessions_trace_bounds sessions ctx _ (mem_savepointIdxs.mp hn)
  · exact runSessions_sorted sessions ctx
  · have hs := runSessions_sorted sessions ctx
    simp only [List.Sorted] at hs
    exact hs.map savePointId fun a b hab he =>
      absurd (savePointId_injective he) (Nat.ne_of_lt hab)

/-! Claim theorems for the forwarding proxy and the lifecycle. -/

/-- C4: accessing any member (string name or symbol) on the forwarding
client proxy while no test transaction is active — before the first
`beginTestTransaction` or after `endTestTransaction` — throws immediately
at the access site with the access-outside-scope condition. -/
theorem proxy_access_outside_fails (ctx : Ctx) (name : PropKey)
    (h : ctx.transactionClient = none) :
    clientProxyGet ctx name = .error (.lifecycle accessOutsideMsg) := by
  unfold clientProxyGet
  rw [h]

/-- Witness for C4, at a string key and at a symbol key of an idle context. -/
theorem proxy_access_outside_fails_witness :
    clientProxyGet idleCtx (.str "user") = .error (.lifecycle accessOutsideMsg) ∧
    clientProxyGet idleCtx (.sym 0) = .error (.lifecycle accessOutsideMsg) :=
  ⟨proxy_access_outside_fails idleCtx (.str "user") rfl,
    proxy_access_outside_fails idleCtx (.sym 0) rfl⟩

/-- C8: for a member other than `$transaction` accessed while a transaction
is active, a stored non-callable value is returned exactly unchanged, and a
stored callable is returned bound to the active transaction-scoped handle,
so that invoking the obtained function resolves `this` against that
handle. -/
theorem proxy_forwarding_fidelity (ctx : Ctx) (tc : TxClient) (name : PropKey)
    (v : Val) (f : Nat → Val)
    (h : ctx.transactionClient = some tc) (hn : name ≠ .str "$transaction") :
    (tc.members name = .data v → clientProxyGet ctx name = .ok (.raw v)) ∧
    (tc.members name = .callable f →
      clientProxyGet ctx name = .ok (.boundFn tc.id f) ∧
      ∀ (ctxAfter : Ctx) (arg : TxArg),
        callObtained (.boundFn tc.id f) ctxAfter arg =
          ⟨.ok (f tc.id), ctxAfter.savePointCounter, []⟩) := by
  constructor
  · intro hm
    simp [clientProxyGet, h, hm, hn]
  · intro hm
    constructor
    · simp [clientProxyGet, h, hm, hn]
    · intro ctxAfter arg
      rfl

/-- Witness for C8: the sample handle stores the plain value `meta` and the
callable `findUser`; the proxy passes `meta` through unchanged and binds
`findUser` to the handle identity `4`, so invoking it yields `104`. -/
theorem proxy_forwarding_fidelity_witness :
    clientProxyGet activeCtx (.str "meta") = .ok (.raw (.nat 9)) ∧
    clientProxyGet activeCtx (.str "findUser") =
      .ok (.boundFn 4 (fun thisId => .nat (thisId + 100))) ∧
    callObtained (.boundFn 4 (fun thisId => .nat (thisId + 100))) idleCtx
      (TxArg.array []) = ⟨.ok (.nat 104), 0, []⟩ :=
  ⟨(proxy_forwarding_fidelity activeCtx sampleClient (.str "meta") (.nat 9)
      (fun thisId => .nat (thisId + 100)) rfl (by decide)).1 rfl,
    ((proxy_forwarding_fidelity activeCtx sampleClient (.str "findUser") (.nat 9)
      (fun thisId => .nat (thisId + 100)) rfl (by decide)).2 rfl).1,
    ((proxy_forwarding_fidelity activeCtx sampleClient (.str "findUser") (.nat 9)
      (fun thisId => .nat (thisId + 100)) rfl (by decide)).2 rfl).2 idleCtx
      (TxArg.array [])⟩

/-- C10: the access-outside-scope guard runs only at property-access time,
not at call time. A callable member other than `$transaction` obtained from
the proxy while a transaction was active stays invocable after the
transaction has ended: the call raises no access-outside-scope error and
runs against the stale handle captured at access time. A stored
`$transaction` reference invoked after the transaction ended fails with the
nested-transaction-without-active condition, which differs from the
access-outside-scope condition. -/
theorem guard_only_at_access_time (ctx : Ctx) (tc : TxClient) (name : PropKey)
    (f : Nat → Val) (arg : TxArg) (ctxAfter : Ctx)
    (h : ctx.transactionClient = some tc)
    (hm : tc.members name = .callable f)
    (hn : name ≠ .str "$transaction")
    (hAfter : ctxAfter.transactionClient = none) :
    clientProxyGet ctx name = .ok (.boundFn tc.id f) ∧
    clientProxyGet ctx (.str "$transaction") = .ok .fakeTx ∧
    callObtained (.boundFn tc.id f) ctxAfter arg =
      ⟨.ok (f tc.id), ctxAfter.savePointCounter, []⟩ ∧
    callObtained .fakeTx ctxAfter arg =
      ⟨.error (.lifecycle nestedTxWithoutActiveMsg), ctxAfter.savePointCounter, []⟩ ∧
    Err.lifecycle nestedTxWithoutActiveMsg ≠ Err.lifecycle accessOutsideMsg := by
  refine ⟨?_, ?_, rfl, ?_, ?_⟩
  · simp [clientProxyGet, h, hm, hn]
  · simp [clientProxyGet, h]
  · simp [callObtained, hAfter, fakeInnerTransactionMethod]
  · intro hcontra
    have hmsg : nestedTxWithoutActiveMsg = accessOutsideMsg :=
      Err.lifecycle.inj hcontra
    exact absurd hmsg (by decide)

/-- Witness for C10: a bound `findUser` obtained during the transaction,
invoked against the context produced by `endTestTransaction`, still runs on
the stale handle; a stored `$transaction` reference invoked there raises
the nested-without-active condition. -/
theorem guard_only_at_access_time_witness :
    clientProxyGet activeCtx (.str "findUser") =
      .ok (.boundFn 4 (fun thisId => .nat (thisId + 100))) ∧
    clientProxyGet activeCtx (.str "$transaction") = .ok .fakeTx ∧
    callObtained (.boundFn 4 (fun thisId => .nat (thisId + 100)))
      (endTestTransaction activeCtx).ctx (TxArg.array []) = ⟨.ok (.nat 104), 0, []⟩ ∧
    callObtained .fakeTx (endTestTransaction activeCtx).ctx (TxArg.array []) =
      ⟨.error (.lifecycle nestedTxWithoutActiveMsg), 0, []⟩ ∧
    Err.lifecycle nestedTxWithoutActiveMsg ≠ Err.lifecycle accessOutsideMsg :=
  guard_only_at_access_time activeCtx sampleClient (.str "findUser")
    (fun thisId => .nat (thisId + 100)) (TxArg.array [])
    (endTestTransaction activeCtx).ctx rfl rfl (by decide) rfl

/-- C1: calling `beginTestTransaction` while a test transaction is already
active (modelled from the spec by `beginTestTransactionGuarded`, since the
current `createContext` source file is absent and only its tests are
present) fails with the transaction-already-active lifecycle-misuse
condition and leaves the context, including the currently active
transaction-scoped handle, completely unchanged: the existing transaction
is neither silently queued behind nor replaced. -/
theorem begin_while_active_fails (ctx : Ctx) (tc tc0 : TxClient)
    (h : ctx.transactionClient = some tc0) :
    beginTestTransactionGuarded ctx tc =
      (.error (.lifecycle beginWhileActiveMsg), ctx) ∧
    (beginTestTransactionGuarded ctx tc).2.transactionClient = some tc0 := by
  have hg : beginTestTransactionGuarded ctx tc =
      (.error (.lifecycle beginWhileActiveMsg), ctx) := by
    unfold beginTestTransactionGuarded
    rw [h]
  exact ⟨hg, by rw [hg]; exact h⟩

/-- Witness for C1 at the sample active context. -/
theorem begin_while_active_fails_witness :
    beginTestTransactionGuarded activeCtx sampleClient =
      (.error (.lifecycle beginWhileActiveMsg), activeCtx) ∧
    (beginTestTransactionGuarded activeCtx sampleClient).2.transactionClient =
      some sampleClient :=
  begin_while_active_fails activeCtx sampleClient sampleClient rfl

/-- C6: the internal rejection used to end a test transaction is caught at
the point of transaction initiation. `beginTestTransaction` always installs
the end-of-transaction closure; `endTestTransaction` on a context in that
state returns normally to its caller, the suspended transaction body is
rejected with the internal rollback error, and the promise chain attached
at initiation (the driver `$transaction` promise followed by the local
catch) settles fulfilled for that rejection — indeed for every possible
rejection — so the rejection never surfaces as an unhandled failure. -/
theorem internal_rejection_caught_at_initiation (ctx : Ctx)
    (h : ctx.trigger = .endTx false) :
    (∀ (ctx2 : Ctx) (tc : TxClient),
      (beginTestTransaction ctx2 tc).trigger = .endTx false) ∧
    (endTestTransaction ctx).result = .ok () ∧
    (endTestTransaction ctx).settled =
      some (.error (.lifecycle rollbackTestTransactionMsg)) ∧
    beginWatchedOutcome (.error (.lifecycle rollbackTestTransactionMsg)) =
      .ok (.bool true) ∧
    (∀ e : Err, beginWatchedOutcome (.error e) = .ok (.bool true)) := by
  unfold endTestTransaction
  rw [h]
  exact ⟨fun ctx2 tc => rfl, rfl, rfl, rfl, fun e => rfl⟩

/-- Witness for C6 at the sample active context. -/
theorem internal_rejection_caught_witness :
    (∀ (ctx2 : Ctx) (tc : TxClient),
      (beginTestTransaction ctx2 tc).trigger = .endTx false) ∧
    (endTestTransaction activeCtx).result = .ok () ∧
    (endTestTransaction activeCtx).settled =
      some (.error (.lifecycle rollbackTestTransactionMsg)) ∧
    beginWatchedOutcome (.error (.lifecycle rollbackTestTransactionMsg)) =
      .ok (.bool true) ∧
    (∀ e : Err, beginWatchedOutcome (.error e) = .ok (.bool true)) :=
  internal_rejection_caught_at_initiation activeCtx rfl

/-- C9: `endTestTransaction` called while no test transaction is active is
a no-op — the end-of-transaction signal defaults to a closure that does
nothing, so the call raises no error, changes no state, and settles no
promise. Called while a transaction is active, it returns normally, rejects
the suspended transaction body, and clears the active transaction-scoped
handle to null, returning the context to the idle state. -/
theorem end_idle_noop_active_clears (ctx1 ctx2 : Ctx)
    (h1 : ctx1.trigger = .noop) (h2 : ctx2.trigger = .endTx false) :
    endTestTransaction ctx1 = ⟨.ok (), ctx1, none⟩ ∧
    (endTestTransaction ctx2).result = .ok () ∧
    (endTestTransaction ctx2).ctx.transactionClient = none ∧
    (endTestTransaction ctx2).settled =
      some (.error (.lifecycle rollbackTestTransactionMsg)) := by
  constructor
  · unfold endTestTransaction
    rw [h1]
  · unfold endTestTransaction
    rw [h2]
    exact ⟨rfl, rfl, rfl⟩

/-- Witness for C9 at the sample idle and active contexts. -/
theorem end_idle_noop_active_clears_witness :
    endTestTransaction idleCtx = ⟨.ok (), idleCtx, none⟩ ∧
    (endTestTransaction activeCtx).result = .ok () ∧
    (endTestTransaction activeCtx).ctx.transactionClient = none ∧
    (endTestTransaction activeCtx).settled =
      some (.error (.lifecycle rollbackTestTransactionMsg)) :=
  end_idle_noop_active_clears idleCtx activeCtx rfl rfl

/-- Witness for C2: a callback unit of work returning `7` from counter `0`
generates savepoint `1`, releases it, and returns `7`. -/
theorem nested_success_witness :
    (fakeInnerTransactionMethod (some sampleClient) 0
        (TxArg.callback (UoW.act (.ok (.nat 7))))).result = .ok (.nat 7) ∧
    (fakeInnerTransactionMethod (some sampleClient) 0
        (TxArg.callback (UoW.act (.ok (.nat 7))))).trace =
      Stmt.savepoint 1 ::
        ((runArg (TxArg.callback (UoW.act (.ok (.nat 7)))) 1).trace ++
          [Stmt.releaseSavepoint 1]) ∧
    (fakeInnerTransactionMethod (some sampleClient) 0
        (TxArg.callback (UoW.act (.ok (.nat 7))))).trace.count (Stmt.savepoint 1) = 1 ∧
    (fakeInnerTransactionMethod (some sampleClient) 0
        (TxArg.callback (UoW.act (.ok (.nat 7))))).trace.count
      (Stmt.releaseSavepoint 1) = 1 ∧
    (fakeInnerTransactionMethod (some sampleClient) 0
        (TxArg.callback (UoW.act (.ok (.nat 7))))).trace.count
      (Stmt.rollbackToSavepoint 1) = 0 :=
  nested_success_savepoint_release sampleClient 0
    (TxArg.callback (UoW.act (.ok (.nat 7)))) (.nat 7) rfl

/-- Witness for C3: a callback unit of work throwing the user error
`(3, "boom")` from counter `0` generates savepoint `1`, rolls back to it,
and re-raises the very same error. -/
theorem nested_failure_witness :
    (fakeInnerTransactionMethod (some sampleClient) 0
        (TxArg.callback (UoW.act (.error (.user 3 "boom"))))).result =
      .error (.user 3 "boom") ∧
    (fakeInnerTransactionMethod (some sampleClient) 0
        (TxArg.callback (UoW.act (.error (.user 3 "boom"))))).trace =
      Stmt.savepoint 1 ::
        ((runArg (TxArg.callback (UoW.act (.error (.user 3 "boom")))) 1).trace ++
          [Stmt.rollbackToSavepoint 1]) ∧
    (fakeInnerTransactionMethod (some sampleClient) 0
        (TxArg.callback (UoW.act (.error (.user 3 "boom"))))).trace.count
      (Stmt.savepoint 1) = 1 ∧
    (fakeInnerTransactionMethod (some sampleClient) 0
        (TxArg.callback (UoW.act (.error (.user 3 "boom"))))).trace.count
      (Stmt.rollbackToSavepoint 1) = 1 ∧
    (fakeInnerTransactionMethod (some sampleClient) 0
        (TxArg.callback (UoW.act (.error (.user 3 "boom"))))).trace.count
      (Stmt.releaseSavepoint 1) = 0 :=
  nested_failure_savepoint_rollback sampleClient 0
    (TxArg.callback (UoW.act (.error (.user 3 "boom")))) (.user 3 "boom") rfl

end VitestPrismaPostgres
